import Mathlib

/-!
Shallow embedding of the durable batching coordinator
(`src/batcher-service/workflow.py` and `src/batcher_activities.py`).

Modelling conventions:
* Python dicts used as requests become `RawRequest`, with `Option` fields
  recording key presence (a missing key is `none`); a signal argument that is
  not a dict at all is the `SignalArg.notDict` case.
* The workflow object state is `WfState`: the checkpointable `BatcherState`
  plus the session-level signal counter.
* `processed_request_ids` (a Python `set` of strings) is a `Finset String`.
* Time (`workflow.now()`) and the md5-derived generated request id are inputs
  of each admission event (`AdmitEvent.now`, `AdmitEvent.genId`): the workflow
  only ever uses the generated id as an opaque string, so every theorem below
  is proved for an arbitrary generated value.
* The external activity call can succeed (returning the value computed by
  `batch_write_to_database`) or fail after retry exhaustion; this outcome is
  the `FlushOutcome` parameter.  Signals that arrive while the activity is in
  flight are the `during` list applied after the snapshot is taken, matching
  the single suspension point of `_process_batch`.
-/

namespace Batcher

/-- Fields of an incoming write-request dict.  `none` means the key is absent. -/
structure RawRequest where
  workflow_id : Option String
  data : Option String
  requesting_workflow : Option String
  request_id : Option String
deriving DecidableEq

/-- The argument of the `add_write_request` signal: either not a dict at all,
or a dict with the fields above. -/
inductive SignalArg where
  | notDict
  | dict (r : RawRequest)
deriving DecidableEq

/-- An enriched request as appended to `pending_writes`: the original dict
fields (with `request_id` filled in), plus `received_at`, the session-level
`batch_sequence`, and the resolved `request_id`. -/
structure Entry where
  raw : RawRequest
  received_at : String
  batch_sequence : Nat
  request_id : String
deriving DecidableEq

/-- `BatcherState`: the state carried over during continue-as-new. -/
structure BatcherState where
  pending_writes : List Entry
  processed_batches_count : Nat
  processed_request_ids : Finset String
  continue_as_new_count : Nat
deriving DecidableEq

/-- The full in-memory workflow state: `self.state` plus the session-level
signal counter (which resets on each continue-as-new). -/
structure WfState where
  state : BatcherState
  session_signals_received : Nat
deriving DecidableEq

/-- `self.batch_size_limit`. -/
def batch_size_limit : Nat := 100

/-- `self.max_continue_as_new_cycles`. -/
def max_continue_as_new_cycles : Nat := 10

/-- Fresh state built by `BatcherWorkflow.__init__`. -/
def freshState : WfState :=
  { state := { pending_writes := [], processed_batches_count := 0,
               processed_request_ids := ∅, continue_as_new_count := 0 },
    session_signals_received := 0 }

/-- Resolution of the request id in `add_write_request`: a present, non-empty
(`truthy`) `request_id` is kept; otherwise the deterministically generated id
(modelled as the input `genId`) is used. -/
def resolveRequestId (r : RawRequest) (genId : String) : String :=
  match r.request_id with
  | some id => if id = "" then genId else id
  | none => genId

/-- The required-field check of `add_write_request` on a dict: the keys
`workflow_id`, `data`, `requesting_workflow` are all present. -/
def validRaw (r : RawRequest) : Bool :=
  r.workflow_id.isSome && r.data.isSome && r.requesting_workflow.isSome

/-- Validation of `add_write_request`: the argument is a dict and carries the
required keys. -/
def validArg : SignalArg → Bool
  | .notDict => false
  | .dict r => validRaw r

/-- The enriched request built in `add_write_request`: the original dict with
`request_id` filled in, plus receive time and the session sequence number. -/
def enrichedEntry (r : RawRequest) (rid now : String) (seq : Nat) : Entry :=
  { raw := { r with request_id := some rid },
    received_at := now,
    batch_sequence := seq,
    request_id := rid }

/-- The `add_write_request` signal handler.  `genId` is the id that would be
generated when the request carries no (or an empty) `request_id`; `now` is
`workflow.now()`. -/
def addWriteRequest (arg : SignalArg) (genId : String) (now : String) (w : WfState) : WfState :=
  match arg with
  | .notDict => w
  | .dict r =>
    if ¬ validRaw r then w
    else
      let request_id := resolveRequestId r genId
      if request_id ∈ w.state.processed_request_ids then w
      else
        { state := { w.state with
            processed_request_ids := insert request_id w.state.processed_request_ids,
            pending_writes := w.state.pending_writes ++
              [enrichedEntry r request_id now w.session_signals_received] },
          session_signals_received := w.session_signals_received + 1 }

/-- One admission event: the signal argument together with the ambient inputs
(the generated id and the current time) of that delivery. -/
structure AdmitEvent where
  arg : SignalArg
  genId : String
  now : String
deriving DecidableEq

/-- Apply one admission event. -/
def admitStep (e : AdmitEvent) (w : WfState) : WfState :=
  addWriteRequest e.arg e.genId e.now w

/-- Apply a list of admission events in order. -/
def applyAdmits (evs : List AdmitEvent) (w : WfState) : WfState :=
  evs.foldl (fun w e => admitStep e w) w

/-- The event is a valid admission whose resolved idempotency key is `k`. -/
def carriesKey (e : AdmitEvent) (k : String) : Prop :=
  match e.arg with
  | .notDict => False
  | .dict r => validRaw r = true ∧ resolveRequestId r e.genId = k

instance (e : AdmitEvent) (k : String) : Decidable (carriesKey e k) := by
  unfold carriesKey
  match e.arg with
  | .notDict => exact inferInstanceAs (Decidable False)
  | .dict r => exact inferInstanceAs (Decidable (_ ∧ _))

/-- Number of pending entries whose request id is `k`. -/
def pendingCountKey (w : WfState) (k : String) : Nat :=
  w.state.pending_writes.countP (fun e => e.request_id = k)

/-- Result dict returned by the `batch_write_to_database` activity.
`write_time` is absent (`none`) in the empty-input branch. -/
structure WriteResult where
  status : String
  count : Nat
  write_time : Option String
deriving DecidableEq

/-- The `batch_write_to_database` activity (`src/batcher_activities.py`):
returns `no_data` on an empty batch, otherwise a success record counting the
batch. -/
def batch_write_to_database (write_requests : List Entry) : WriteResult :=
  if write_requests.isEmpty then
    { status := "no_data", count := 0, write_time := none }
  else
    { status := "success", count := write_requests.length,
      write_time := some "simulated_timestamp" }

/-- The activity result augmented with `batch_id` and `batch_size` in
`_process_batch` before dispatch. -/
structure EnhancedResult where
  status : String
  count : Nat
  write_time : Option String
  batch_id : String
  batch_size : Nat
deriving DecidableEq

/-- `_send_confirmation_safe`: produces the signal sent to the requesting
workflow, or nothing when the `requesting_workflow` field is missing or empty
(falsy).  Delivery failures are caught and change no state, so the attempted
sends are all the model needs. -/
def send_confirmation_safe (e : Entry) (result : EnhancedResult)
    : Option (String × EnhancedResult) :=
  match e.raw.requesting_workflow with
  | none => none
  | some addr => if addr = "" then none else some (addr, result)

/-- Outcome of the retried external activity invocation: it either returns
(success) or the awaited call raises after retry exhaustion (failure). -/
inductive FlushOutcome where
  | success
  | failure
deriving DecidableEq

/-- The set of request ids of a list of enriched requests, as built by the
comprehensions over `request_id` in `_process_batch` and
`_safe_continue_as_new` (every enriched request carries the key). -/
def requestIds (l : List Entry) : Finset String :=
  (l.map Entry.request_id).toFinset

/-- The snapshot-and-clear at the top of `_process_batch`. -/
def clearPending (w : WfState) : WfState :=
  { w with state := { w.state with pending_writes := [] } }

/-- Success branch of `_process_batch`, applied to the state current when the
activity resolves: increments the batch counter and removes the snapshotted
batch's request ids from the deduplication set. -/
def successUpdate (batch : List Entry) (w : WfState) : WfState :=
  { w with state := { w.state with
      processed_batches_count := w.state.processed_batches_count + 1,
      processed_request_ids := w.state.processed_request_ids \ requestIds batch } }

/-- Failure branch of `_process_batch`: extends `pending_writes` with the
failed batch and leaves the deduplication set untouched. -/
def failureUpdate (batch : List Entry) (w : WfState) : WfState :=
  { w with state := { w.state with
      pending_writes := w.state.pending_writes ++ batch } }

/-- `_process_batch`: snapshots and clears the pending queue, lets the
admissions in `during` land while the activity is in flight, then applies the
success or failure branch.  Returns the new state together with the
confirmation signals attempted (empty on failure). -/
def processBatch (during : List AdmitEvent) (outcome : FlushOutcome) (w : WfState)
    : WfState × List (String × EnhancedResult) :=
  let batch_to_process := w.state.pending_writes
  let batch_id := "batch-" ++ toString (w.state.processed_batches_count + 1)
  let w2 := applyAdmits during (clearPending w)
  match outcome with
  | .success =>
    let write_result := batch_write_to_database batch_to_process
    let enhanced : EnhancedResult :=
      { status := write_result.status, count := write_result.count,
        write_time := write_result.write_time,
        batch_id := batch_id, batch_size := batch_to_process.length }
    (successUpdate batch_to_process w2,
     batch_to_process.filterMap (fun e => send_confirmation_safe e enhanced))
  | .failure =>
    (failureUpdate batch_to_process w2, [])

/-- `list(set)` in `to_dict`: Python iterates the set in an arbitrary order;
the model picks the canonical sorted order, which is one such order. -/
def setToList (s : Finset String) : List String :=
  s.sort (· ≤ ·)

/-- The serialized checkpoint blob produced by `BatcherState.to_dict`:
the deduplication set is converted to a list for JSON. -/
structure StateDict where
  pending_writes : List Entry
  processed_batches_count : Nat
  processed_request_ids : List String
  continue_as_new_count : Nat
deriving DecidableEq

/-- `BatcherState.to_dict`. -/
def BatcherState.to_dict (s : BatcherState) : StateDict :=
  { pending_writes := s.pending_writes,
    processed_batches_count := s.processed_batches_count,
    processed_request_ids := setToList s.processed_request_ids,
    continue_as_new_count := s.continue_as_new_count }

/-- `BatcherState.from_dict`: converts the id list back to a set. -/
def BatcherState.from_dict (d : StateDict) : BatcherState :=
  { pending_writes := d.pending_writes,
    processed_batches_count := d.processed_batches_count,
    processed_request_ids := d.processed_request_ids.toFinset,
    continue_as_new_count := d.continue_as_new_count }

/-- `_safe_continue_as_new`: force-flushes a non-empty pending queue, trims the
deduplication set to the ids of the requests still pending, increments the
cycle counter, and hands the serialized state to `continue_as_new`.  Returns
the final in-memory state, the confirmations attempted by the forced flush,
and the carried blob (the code calls `continue_as_new` unconditionally, so a
blob is always produced). -/
def safeContinueAsNew (during : List AdmitEvent) (outcome : FlushOutcome) (w : WfState)
    : WfState × List (String × EnhancedResult) × StateDict :=
  let step2 :=
    if w.state.pending_writes.isEmpty then (w, [])
    else processBatch during outcome w
  let w1 := step2.1
  let pending_request_ids := requestIds w1.state.pending_writes
  let w2 : WfState :=
    { w1 with state := { w1.state with processed_request_ids := pending_request_ids } }
  let w3 : WfState :=
    { w2 with state := { w2.state with
        continue_as_new_count := w2.state.continue_as_new_count + 1 } }
  (w3, step2.2, w3.state.to_dict)

/-- The restore-and-safety-check prologue of `run` (lines 64-79): rebuild the
state from the carried blob with a fresh session counter; when the carried
cycle counter has reached `max_continue_as_new_cycles`, force-process the
pending writes (if any) and reset the counter to 0. -/
def resumeRestore (d : StateDict) (during : List AdmitEvent) (outcome : FlushOutcome)
    : WfState × List (String × EnhancedResult) :=
  let w : WfState := { state := BatcherState.from_dict d, session_signals_received := 0 }
  if max_continue_as_new_cycles ≤ w.state.continue_as_new_count then
    let flushed :=
      if w.state.pending_writes.isEmpty then (w, [])
      else processBatch during outcome w
    ({ flushed.1 with state := { flushed.1.state with continue_as_new_count := 0 } },
     flushed.2)
  else (w, [])

/-- One iteration of the main loop after the flush trigger (lines 98-100):
process a batch only when there are pending writes. -/
def loopIterFlush (during : List AdmitEvent) (outcome : FlushOutcome) (w : WfState)
    : WfState × List (String × EnhancedResult) :=
  if w.state.pending_writes.isEmpty then (w, []) else processBatch during outcome w

/-- Retry policy passed to `workflow.execute_activity` in `_process_batch`.
Durations are in seconds; the backoff coefficient 2.0 is the exact natural 2. -/
structure RetryPolicy where
  maximum_attempts : Nat
  initial_interval : Nat
  maximum_interval : Nat
  backoff_coefficient : Nat
deriving DecidableEq

/-- Options of a `workflow.execute_activity` invocation that bear on timeout
semantics: `start_to_close_timeout` bounds each individual attempt, while
`schedule_to_close_timeout` would bound the whole retried invocation;
an option the call site does not pass is `none`. -/
structure ActivityOptions where
  start_to_close_timeout : Option Nat
  schedule_to_close_timeout : Option Nat
  retry_policy : RetryPolicy
deriving DecidableEq

/-- The exact options passed at the single `execute_activity` call site in
`_process_batch` (lines 164-174): only `start_to_close_timeout=30s` and the
retry policy are given. -/
def processBatchActivityOptions : ActivityOptions :=
  { start_to_close_timeout := some 30,
    schedule_to_close_timeout := none,
    retry_policy :=
      { maximum_attempts := 3, initial_interval := 1,
        maximum_interval := 10, backoff_coefficient := 2 } }

/-! Concrete requests used by the closed scenario theorems below. -/

/-- A valid request with explicit key `k1`, requester `a1`. -/
def rq1 : RawRequest :=
  { workflow_id := some "wf-1", data := some "d1",
    requesting_workflow := some "a1", request_id := some "k1" }

/-- A valid request with explicit key `k2`, requester `a2`. -/
def rq2 : RawRequest :=
  { workflow_id := some "wf-2", data := some "d2",
    requesting_workflow := some "a2", request_id := some "k2" }

/-- A valid request with explicit key `k3`, requester `a3`. -/
def rq3 : RawRequest :=
  { workflow_id := some "wf-3", data := some "d3",
    requesting_workflow := some "a3", request_id := some "k3" }

/-- Admission event for a raw request, with ambient inputs fixed. -/
def evOf (r : RawRequest) : AdmitEvent :=
  { arg := .dict r, genId := "gen", now := "t0" }

/-- State after admitting `rq1`, `rq2`, `rq3` into a fresh coordinator. -/
def wThree : WfState :=
  applyAdmits [evOf rq1, evOf rq2, evOf rq3] freshState

/-- Steps 3-4 of `_safe_continue_as_new`: recompute the deduplication set as
the ids of the still-pending requests and increment the cycle counter. -/
def trimDedup (w : WfState) : WfState :=
  { w with state := { w.state with
      processed_request_ids := requestIds w.state.pending_writes,
      continue_as_new_count := w.state.continue_as_new_count + 1 } }

/-- The coordinator state together with the batch currently being written
(the snapshot held by `_process_batch` across its activity await), if any. -/
structure FullState where
  wf : WfState
  in_flight : Option (List Entry)

/-- Ids of the batch currently being written, if any. -/
def inFlightIds (s : FullState) : Finset String :=
  match s.in_flight with
  | none => ∅
  | some b => requestIds b

/-- Small-step transitions of the coordinator.  A flush is split at its single
suspension point: `beginFlush` is the synchronous snapshot-and-clear (only
taken at call sites guarded by a non-empty queue, with no other flush in
flight), and `endSuccess` / `endFailure` apply the corresponding branch of
`_process_batch` to the state current when the activity resolves.  `deliver` is
an arrival of the `add_write_request` signal (possible while a flush is in
flight).  `handoffTrim` is steps 3-4 of `_safe_continue_as_new` (only run once
no flush is in flight), `restart` is the serialize-and-restore boundary of a
handoff (fresh session counter), and `resetCycle` is the counter reset of the
`run` safety check. -/
inductive Step : FullState → FullState → Prop where
  | deliver (s : FullState) (e : AdmitEvent) :
      Step s { s with wf := admitStep e s.wf }
  | beginFlush (s : FullState) (h : s.in_flight = none)
      (hne : s.wf.state.pending_writes ≠ []) :
      Step s { wf := clearPending s.wf, in_flight := some s.wf.state.pending_writes }
  | endSuccess (s : FullState) (b : List Entry) (h : s.in_flight = some b) :
      Step s { wf := successUpdate b s.wf, in_flight := none }
  | endFailure (s : FullState) (b : List Entry) (h : s.in_flight = some b) :
      Step s { wf := failureUpdate b s.wf, in_flight := none }
  | handoffTrim (s : FullState) (h : s.in_flight = none) :
      Step s { wf := trimDedup s.wf, in_flight := none }
  | restart (s : FullState) (h : s.in_flight = none) :
      Step s { wf := { state := BatcherState.from_dict s.wf.state.to_dict,
                       session_signals_received := 0 },
               in_flight := none }
  | resetCycle (s : FullState) :
      Step s { s with wf := { s.wf with state :=
        { s.wf.state with continue_as_new_count := 0 } } }

/-- The initial full state: a freshly constructed workflow, no flush in
flight. -/
def initFull : FullState := { wf := freshState, in_flight := none }

/-- Reachability of a full coordinator state from a fresh start. -/
def Reachable (s : FullState) : Prop :=
  Relation.ReflTransGen Step initFull s

/-- The inductive invariant behind claim C3: deduplication-set membership is
exactly membership in the pending queue or the in-flight batch, and while a
flush is in flight no pending request repeats a key of the in-flight batch. -/
def Inv (s : FullState) : Prop :=
  (∀ k, k ∈ s.wf.state.processed_request_ids ↔
      k ∈ requestIds s.wf.state.pending_writes ∨ k ∈ inFlightIds s) ∧
  (∀ b, s.in_flight = some b →
      ∀ k, k ∈ requestIds b → k ∉ requestIds s.wf.state.pending_writes)

/-- Argument lists with which the main loop (lines 98-100) invokes
`_process_batch`, hence the activity: the call is guarded by a non-empty
pending queue and passes its snapshot. -/
def loopIterActivityCalls (w : WfState) : List (List Entry) :=
  if w.state.pending_writes.isEmpty then [] else [w.state.pending_writes]

/-- Argument lists with which the resume safety check (lines 71-79) invokes
the activity: only when the carried cycle counter reached the cap and the
restored pending queue is non-empty. -/
def resumeActivityCalls (d : StateDict) : List (List Entry) :=
  if max_continue_as_new_cycles ≤ (BatcherState.from_dict d).continue_as_new_count ∧
      ¬ (BatcherState.from_dict d).pending_writes.isEmpty then
    [(BatcherState.from_dict d).pending_writes]
  else []

/-- Argument lists with which step 2 of `_safe_continue_as_new` (lines
132-135) invokes the activity: guarded by a non-empty pending queue. -/
def handoffActivityCalls (w : WfState) : List (List Entry) :=
  if w.state.pending_writes.isEmpty then [] else [w.state.pending_writes]

/-- A carried checkpoint blob whose cycle counter sits at the cap, with one
pending request of key `k1`. -/
def d10 : StateDict :=
  { pending_writes := [enrichedEntry rq1 "k1" "t0" 0],
    processed_batches_count := 0,
    processed_request_ids := ["k1"],
    continue_as_new_count := 10 }

/-- An in-memory state whose cycle counter exceeds the cap, empty queue. -/
def w11 : WfState :=
  { state := { pending_writes := [], processed_batches_count := 0,
               processed_request_ids := ∅, continue_as_new_count := 11 },
    session_signals_received := 0 }

end Batcher

namespace Batcher

/-! Helper lemmas about single admissions. -/

/-- Either an admission leaves the state untouched, or it is a valid fresh
admission: the resolved id enters the deduplication set and the enriched
request is appended to the pending queue. -/
lemma admitStep_cases (e : AdmitEvent) (w : WfState) :
    admitStep e w = w ∨
    ∃ r : RawRequest, e.arg = .dict r ∧ validRaw r = true ∧
      resolveRequestId r e.genId ∉ w.state.processed_request_ids ∧
      admitStep e w =
        { state := { w.state with
            processed_request_ids :=
              insert (resolveRequestId r e.genId) w.state.processed_request_ids,
            pending_writes := w.state.pending_writes ++
              [enrichedEntry r (resolveRequestId r e.genId) e.now
                w.session_signals_received] },
          session_signals_received := w.session_signals_received + 1 } := by
  rcases e with ⟨arg, genId, now⟩
  cases arg with
  | notDict => exact Or.inl rfl
  | dict r =>
      by_cases hv : validRaw r
      · by_cases hm : resolveRequestId r genId ∈ w.state.processed_request_ids
        · exact Or.inl (by simp [admitStep, addWriteRequest, hv, hm])
        · exact Or.inr ⟨r, rfl, hv, hm, by simp [admitStep, addWriteRequest, hv, hm]⟩
      · exact Or.inl (by simp [admitStep, addWriteRequest, hv])

/-- A valid admission whose key is already tracked in the deduplication set is
a strict no-op. -/
lemma admitStep_reject_dup (e : AdmitEvent) (k : String) (w : WfState)
    (hc : carriesKey e k) (hmem : k ∈ w.state.processed_request_ids) :
    admitStep e w = w := by
  rcases e with ⟨arg, genId, now⟩
  cases arg with
  | notDict => rfl
  | dict r =>
      rcases hc with ⟨hv, hres⟩
      simp [admitStep, addWriteRequest, hv, hres, hmem]

/-- A valid admission whose key is not yet tracked inserts the key into the
deduplication set. -/
lemma admitStep_accept_dedup (e : AdmitEvent) (k : String) (w : WfState)
    (hc : carriesKey e k) (hmem : k ∉ w.state.processed_request_ids) :
    (admitStep e w).state.processed_request_ids =
      insert k w.state.processed_request_ids := by
  rcases e with ⟨arg, genId, now⟩
  cases arg with
  | notDict => exact absurd hc (by simp [carriesKey])
  | dict r =>
      rcases hc with ⟨hv, hres⟩
      simp [admitStep, addWriteRequest, hv, hres, hmem]

/-- A valid admission whose key is not yet tracked appends exactly one entry,
carrying that key, to the pending queue. -/
lemma admitStep_accept_pending (e : AdmitEvent) (k : String) (w : WfState)
    (hc : carriesKey e k) (hmem : k ∉ w.state.processed_request_ids) :
    ∃ ent : Entry, ent.request_id = k ∧
      (admitStep e w).state.pending_writes = w.state.pending_writes ++ [ent] := by
  rcases e with ⟨arg, genId, now⟩
  cases arg with
  | notDict => exact absurd hc (by simp [carriesKey])
  | dict r =>
      rcases hc with ⟨hv, hres⟩
      refine ⟨enrichedEntry r k now w.session_signals_received, rfl, ?_⟩
      simp [admitStep, addWriteRequest, hv, hres, hmem]

/-- Admissions never remove keys from the deduplication set. -/
lemma admitStep_dedup_mono (e : AdmitEvent) (k : String) (w : WfState)
    (h : k ∈ w.state.processed_request_ids) :
    k ∈ (admitStep e w).state.processed_request_ids := by
  rcases admitStep_cases e w with heq | ⟨r, _, _, _, heq⟩
  · rw [heq]; exact h
  · rw [heq]; exact Finset.mem_insert_of_mem h

/-- `applyAdmits` on a cons. -/
lemma applyAdmits_cons (e : AdmitEvent) (evs : List AdmitEvent) (w : WfState) :
    applyAdmits (e :: evs) w = applyAdmits evs (admitStep e w) := rfl

/-- Admission sequences never remove keys from the deduplication set. -/
lemma applyAdmits_dedup_mono (evs : List AdmitEvent) (k : String) (w : WfState)
    (h : k ∈ w.state.processed_request_ids) :
    k ∈ (applyAdmits evs w).state.processed_request_ids := by
  induction evs generalizing w with
  | nil => exact h
  | cons e t ih => exact ih (admitStep e w) (admitStep_dedup_mono e k w h)

/-- A valid admission carrying key `k` puts (or keeps) `k` in the
deduplication set. -/
lemma admitStep_carry_dedup (e : AdmitEvent) (k : String) (w : WfState)
    (hc : carriesKey e k) :
    k ∈ (admitStep e w).state.processed_request_ids := by
  by_cases hmem : k ∈ w.state.processed_request_ids
  · rw [admitStep_reject_dup e k w hc hmem]; exact hmem
  · rw [admitStep_accept_dedup e k w hc hmem]; exact Finset.mem_insert_self k _

/-- After a sequence containing a valid admission of key `k`, the key is in
the deduplication set. -/
lemma applyAdmits_carry_dedup (evs : List AdmitEvent) (k : String) (w : WfState)
    (h : ∃ e ∈ evs, carriesKey e k) :
    k ∈ (applyAdmits evs w).state.processed_request_ids := by
  induction evs generalizing w with
  | nil => simp at h
  | cons e t ih =>
      rcases h with ⟨e0, he0, hc⟩
      rcases List.mem_cons.mp he0 with heq0 | hmem
      · exact applyAdmits_dedup_mono t k (admitStep e w)
          (admitStep_carry_dedup e k w (heq0 ▸ hc))
      · exact ih (admitStep e w) ⟨e0, hmem, hc⟩

/-- A single admission preserves the counting invariant: the pending queue
holds exactly one entry of key `k` when `k` is tracked, none otherwise. -/
lemma admitStep_keyCount (e : AdmitEvent) (k : String) (w : WfState)
    (h : pendingCountKey w k =
      if k ∈ w.state.processed_request_ids then 1 else 0) :
    pendingCountKey (admitStep e w) k =
      if k ∈ (admitStep e w).state.processed_request_ids then 1 else 0 := by
  rcases admitStep_cases e w with heq | ⟨r, harg, hv, hmem, heq⟩
  · rw [heq]; exact h
  · rw [heq]
    by_cases hk : k = resolveRequestId r e.genId
    · have hmem' : k ∉ w.state.processed_request_ids := by rw [hk]; exact hmem
      have h0 : pendingCountKey w k = 0 := by
        rw [h, if_neg hmem']
      simp only [pendingCountKey] at h0 ⊢
      simp [List.countP_append, List.countP_cons, enrichedEntry, ← hk, h0]
    · simp only [pendingCountKey] at h ⊢
      simp [List.countP_append, List.countP_cons, enrichedEntry,
        Ne.symm hk, Finset.mem_insert, hk, h]

/-- An admission sequence preserves the counting invariant. -/
lemma applyAdmits_keyCount (evs : List AdmitEvent) (k : String) (w : WfState)
    (h : pendingCountKey w k =
      if k ∈ w.state.processed_request_ids then 1 else 0) :
    pendingCountKey (applyAdmits evs w) k =
      if k ∈ (applyAdmits evs w).state.processed_request_ids then 1 else 0 := by
  induction evs generalizing w with
  | nil => exact h
  | cons e t ih => exact ih (admitStep e w) (admitStep_keyCount e k w h)

/-- C1: admitting the same idempotency key any number N ≥ 1 of times from a
fresh coordinator, interleaved arbitrarily with other admissions, leaves
exactly one pending entry with that key, and every admission of the key after
the first is a strict no-op on the state. -/
theorem claim_C1_idempotent_admission (evs : List AdmitEvent) (k : String)
    (hk : ∃ e ∈ evs, carriesKey e k) :
    pendingCountKey (applyAdmits evs freshState) k = 1 ∧
    ∀ l e r, evs = l ++ e :: r → carriesKey e k →
      (∃ e0 ∈ l, carriesKey e0 k) →
      admitStep e (applyAdmits l freshState) = applyAdmits l freshState := by
  constructor
  · have hinv := applyAdmits_keyCount evs k freshState (by rfl)
    rw [hinv, if_pos (applyAdmits_carry_dedup evs k freshState hk)]
  · intro l e r _ hce hex
    exact admitStep_reject_dup e k (applyAdmits l freshState) hce
      (applyAdmits_carry_dedup l k freshState hex)

/-- Witness for C1: submitting key `k1` twice leaves one pending entry. -/
theorem claim_C1_witness :
    (∃ e ∈ [evOf rq1, evOf rq1], carriesKey e "k1") ∧
    pendingCountKey (applyAdmits [evOf rq1, evOf rq1] freshState) "k1" = 1 :=
  ⟨by decide,
   (claim_C1_idempotent_admission [evOf rq1, evOf rq1] "k1" (by decide)).1⟩

/-- Serialize-then-deserialize of the carried state is the identity. -/
lemma fromDict_toDict (s : BatcherState) : BatcherState.from_dict s.to_dict = s := by
  cases s with
  | mk p c ids n =>
      simp [BatcherState.to_dict, BatcherState.from_dict, setToList,
        Finset.sort_toFinset]

/-- Request ids of a concatenation. -/
lemma requestIds_append (l1 l2 : List Entry) :
    requestIds (l1 ++ l2) = requestIds l1 ∪ requestIds l2 := by
  simp [requestIds, List.toFinset_append]

/-- The invariant holds in the initial state. -/
lemma inv_init : Inv initFull := by
  constructor
  · intro k
    simp [initFull, freshState, requestIds, inFlightIds]
  · intro b hb
    simp [initFull] at hb

/-- Every coordinator step preserves the invariant. -/
lemma inv_step {s s' : FullState} (hs : Step s s') (hinv : Inv s) : Inv s' := by
  rcases hinv with ⟨hiff, hdisj⟩
  cases hs with
  | deliver e =>
      rcases admitStep_cases e s.wf with heq | ⟨r, harg, hv, hmem, heq⟩
      · constructor
        · intro k
          have hk := hiff k
          simpa [heq, inFlightIds] using hk
        · intro b hb k hk
          have hb' : s.in_flight = some b := hb
          simpa [heq] using hdisj b hb' k hk
      · constructor
        · intro k
          have hk := hiff k
          rw [heq]
          simp only [requestIds, List.map_append, List.toFinset_append,
            Finset.mem_union, inFlightIds] at hk ⊢
          simp only [enrichedEntry, List.map_cons, List.map_nil,
            List.toFinset_cons, List.toFinset_nil, Finset.mem_insert,
            Finset.mem_union, Finset.not_mem_empty, or_false] at hk ⊢
          by_cases hkr : k = resolveRequestId r e.genId
          · subst hkr
            simp [Finset.mem_insert]
          · simp only [Finset.mem_insert, hkr, false_or]
            tauto
        · intro b hb k hk
          have hb' : s.in_flight = some b := hb
          have hkfl : k ∈ inFlightIds s := by
            simp only [inFlightIds, hb']
            exact hk
          have hkded : k ∈ s.wf.state.processed_request_ids :=
            (hiff k).mpr (Or.inr hkfl)
          have hkne : ¬ k = resolveRequestId r e.genId := by
            intro hEq
            exact hmem (hEq ▸ hkded)
          have hnp : k ∉ requestIds s.wf.state.pending_writes := hdisj b hb' k hk
          rw [heq]
          simp only [requestIds, List.map_append, List.toFinset_append,
            Finset.mem_union, enrichedEntry, List.map_cons, List.map_nil,
            List.toFinset_cons, List.toFinset_nil, Finset.mem_insert,
            Finset.not_mem_empty, or_false]
          rintro (hcon | hcon)
          · exact hnp hcon
          · exact hkne hcon
  | beginFlush h hne =>
      constructor
      · intro k
        have hk := hiff k
        simp only [inFlightIds, h, Finset.not_mem_empty, or_false] at hk
        simp only [clearPending, inFlightIds, requestIds, List.map_nil,
          List.toFinset_nil, Finset.not_mem_empty, false_or]
        exact hk
      · intro b hb k hk
        simp [clearPending, requestIds]
  | endSuccess b h =>
      have hfl : inFlightIds s = requestIds b := by
        simp [inFlightIds, h]
      constructor
      · intro k
        have hk := hiff k
        rw [hfl] at hk
        have hd := hdisj b h k
        simp only [successUpdate, inFlightIds, Finset.mem_sdiff,
          Finset.not_mem_empty, or_false]
        constructor
        · rintro ⟨hin, hnb⟩
          rcases hk.mp hin with hp | hb2
          · exact hp
          · exact absurd hb2 hnb
        · intro hp
          exact ⟨hk.mpr (Or.inl hp), fun hkb => hd hkb hp⟩
      · intro b' hb'
        simp at hb'
  | endFailure b h =>
      have hfl : inFlightIds s = requestIds b := by
        simp [inFlightIds, h]
      constructor
      · intro k
        have hk := hiff k
        rw [hfl] at hk
        simp only [failureUpdate, inFlightIds, requestIds_append,
          Finset.mem_union, Finset.not_mem_empty, or_false]
        tauto
      · intro b' hb'
        simp at hb'
  | handoffTrim h =>
      constructor
      · intro k
        simp [trimDedup, inFlightIds]
      · intro b' hb'
        simp at hb'
  | restart h =>
      constructor
      · intro k
        have hk := hiff k
        simp only [inFlightIds, h, Finset.not_mem_empty, or_false] at hk
        simp only [fromDict_toDict, inFlightIds, Finset.not_mem_empty, or_false]
        exact hk
      · intro b' hb'
        simp at hb'
  | resetCycle =>
      constructor
      · intro k
        have hk := hiff k
        simpa [inFlightIds] using hk
      · intro b hb k hk
        have hb' : s.in_flight = some b := hb
        exact hdisj b hb' k hk

/-- The invariant holds in every reachable state. -/
lemma inv_reachable {s : FullState} (h : Reachable s) : Inv s := by
  induction h with
  | refl => exact inv_init
  | tail _ hstep ih => exact inv_step hstep ih

/-- C3: in every reachable coordinator state, a key is tracked in the
deduplication set iff a request with that key is pending or in the batch
currently being written; a tracked key makes resubmission a strict no-op (in
particular after a failed flush, whose handling keeps the batch's keys
tracked), and after a successful flush the batch's keys are released, so a
resubmission is admitted as a new pending entry. -/
theorem claim_C3_dedup_membership_invariant (s : FullState) (h : Reachable s)
    (k : String) :
    (k ∈ s.wf.state.processed_request_ids ↔
      k ∈ requestIds s.wf.state.pending_writes ∨ k ∈ inFlightIds s) ∧
    (∀ e : AdmitEvent, carriesKey e k →
      k ∈ s.wf.state.processed_request_ids → admitStep e s.wf = s.wf) ∧
    (∀ b, s.in_flight = some b → k ∈ requestIds b →
      k ∈ (failureUpdate b s.wf).state.processed_request_ids ∧
      ∀ e : AdmitEvent, carriesKey e k →
        admitStep e (failureUpdate b s.wf) = failureUpdate b s.wf) ∧
    (∀ b, s.in_flight = some b → k ∈ requestIds b →
      k ∉ (successUpdate b s.wf).state.processed_request_ids ∧
      ∀ e : AdmitEvent, carriesKey e k →
        pendingCountKey (admitStep e (successUpdate b s.wf)) k =
          pendingCountKey (successUpdate b s.wf) k + 1) := by
  obtain ⟨hiff, hdisj⟩ := inv_reachable h
  refine ⟨hiff k, ?_, ?_, ?_⟩
  · intro e hc hm
    exact admitStep_reject_dup e k _ hc hm
  · intro b hb hk
    have hkfl : k ∈ inFlightIds s := by
      simp only [inFlightIds, hb]
      exact hk
    have hm : k ∈ s.wf.state.processed_request_ids := (hiff k).mpr (Or.inr hkfl)
    have hm' : k ∈ (failureUpdate b s.wf).state.processed_request_ids := by
      simpa [failureUpdate] using hm
    exact ⟨hm', fun e hc => admitStep_reject_dup e k _ hc hm'⟩
  · intro b hb hk
    have hnot : k ∉ (successUpdate b s.wf).state.processed_request_ids := by
      simp only [successUpdate, Finset.mem_sdiff]
      rintro ⟨-, hnb⟩
      exact hnb hk
    refine ⟨hnot, fun e hc => ?_⟩
    obtain ⟨ent, hid, hpend⟩ := admitStep_accept_pending e k _ hc hnot
    simp [pendingCountKey, hpend, List.countP_append, List.countP_cons, hid]

/-- Witness for C3 at the reachable state after one admission of key `k1`. -/
theorem claim_C3_witness :
    Reachable { wf := admitStep (evOf rq1) freshState, in_flight := none } ∧
    ("k1" ∈ (admitStep (evOf rq1) freshState).state.processed_request_ids ↔
      "k1" ∈ requestIds (admitStep (evOf rq1) freshState).state.pending_writes ∨
      "k1" ∈ inFlightIds
        { wf := admitStep (evOf rq1) freshState, in_flight := none }) :=
  ⟨Relation.ReflTransGen.single (Step.deliver initFull (evOf rq1)),
   (claim_C3_dedup_membership_invariant
      { wf := admitStep (evOf rq1) freshState, in_flight := none }
      (Relation.ReflTransGen.single (Step.deliver initFull (evOf rq1))) "k1").1⟩

/-- C9: serializing and deserializing the checkpoint blob is lossless:
`from_dict (to_dict s)` returns `s` itself — pending requests in order, the
deduplication set (order-insensitively), and both counters. -/
theorem claim_C9_checkpoint_roundtrip (s : BatcherState) :
    BatcherState.from_dict s.to_dict = s :=
  fromDict_toDict s

/-- C8: an invalid admission (not a dict, or missing one of `workflow_id`,
`data`, `requesting_workflow`) leaves the whole coordinator state — pending
queue, deduplication set and all counters — unchanged. -/
theorem claim_C8_invalid_admission_no_state_change
    (w : WfState) (arg : SignalArg) (genId now : String)
    (h : validArg arg = false) :
    addWriteRequest arg genId now w = w := by
  cases arg with
  | notDict => rfl
  | dict r =>
      simp only [validArg] at h
      simp [addWriteRequest, h]

/-- Witness for C8 at a concrete malformed request (missing `data`). -/
theorem claim_C8_witness :
    validArg (SignalArg.dict
      { workflow_id := some "wf-1", data := none,
        requesting_workflow := some "a1", request_id := none }) = false ∧
    addWriteRequest (SignalArg.dict
      { workflow_id := some "wf-1", data := none,
        requesting_workflow := some "a1", request_id := none }) "g" "t" freshState
      = freshState :=
  ⟨by decide,
   claim_C8_invalid_admission_no_state_change freshState _ "g" "t" (by decide)⟩

/-- C4: whatever the state and whatever the outcome of the forced flush, the
deduplication set in the handoff blob handed to `continue_as_new` — both as
restored by the next execution and as held in memory when handing off — is
exactly the set of request ids of the pending requests carried in that blob. -/
theorem claim_C4_handoff_trim (w : WfState) (during : List AdmitEvent)
    (outcome : FlushOutcome) :
    (BatcherState.from_dict (safeContinueAsNew during outcome w).2.2).processed_request_ids
      = requestIds
        (BatcherState.from_dict (safeContinueAsNew during outcome w).2.2).pending_writes ∧
    (safeContinueAsNew during outcome w).1.state.processed_request_ids
      = requestIds (safeContinueAsNew during outcome w).1.state.pending_writes := by
  constructor
  · simp [safeContinueAsNew, BatcherState.to_dict, BatcherState.from_dict,
      setToList, Finset.sort_toFinset]
  · simp [safeContinueAsNew]

/-- C5 counterexample: with the cycle counter at 11 — strictly above the hard
cap 10 — the handoff round still performs the handoff, carrying counter 12:
the counter is not reset to 0 and the handoff is not skipped. -/
theorem claim_C5_counterexample :
    max_continue_as_new_cycles < w11.state.continue_as_new_count ∧
    (safeContinueAsNew [] FlushOutcome.success w11).2.2.continue_as_new_count = 12 ∧
    ¬ (safeContinueAsNew [] FlushOutcome.success w11).2.2.continue_as_new_count = 0 := by
  refine ⟨by decide, by decide, by decide⟩

/-- C5 (amended): the circuit breaker runs at the start of the next execution,
not inside the handoff round: a handoff always increments the cycle counter
and is always performed, and when an execution resumes with a carried counter
at or above the cap 10 it resets the counter to 0 and force-flushes any
pending writes (on a successful quiet flush the restored queue drains and the
batch counter advances). -/
theorem claim_C5_resume_circuit_breaker (d : StateDict) (during : List AdmitEvent)
    (outcome : FlushOutcome)
    (h : max_continue_as_new_cycles ≤ d.continue_as_new_count) :
    (resumeRestore d during outcome).1.state.continue_as_new_count = 0 ∧
    (d.pending_writes = [] →
      (resumeRestore d during outcome).1.state.pending_writes = []) ∧
    (outcome = FlushOutcome.success → during = [] →
      (resumeRestore d during outcome).1.state.pending_writes = [] ∧
      (¬ d.pending_writes = [] →
        (resumeRestore d during outcome).1.state.processed_batches_count =
          d.processed_batches_count + 1)) ∧
    ∀ v : WfState,
      (safeContinueAsNew during outcome v).2.2.continue_as_new_count =
        (if v.state.pending_writes.isEmpty then v
         else (processBatch during outcome v).1).state.continue_as_new_count + 1 := by
  have hc : max_continue_as_new_cycles ≤
      (BatcherState.from_dict d).continue_as_new_count := h
  refine ⟨?_, ?_, ?_, ?_⟩
  · simp [resumeRestore, hc]
  · intro hp
    simp [resumeRestore, h, hc, BatcherState.from_dict, hp]
  · rintro rfl rfl
    by_cases hp : d.pending_writes = []
    · refine ⟨?_, fun hcon => absurd hp hcon⟩
      simp [resumeRestore, h, hc, BatcherState.from_dict, hp]
    · have hne : ((BatcherState.from_dict d).pending_writes.isEmpty) = false := by
        simp [BatcherState.from_dict, List.isEmpty_iff, hp]
      refine ⟨?_, fun _ => ?_⟩
      · simp [resumeRestore, h, hc, hne, hp, processBatch, successUpdate,
          applyAdmits, clearPending]
      · simp [resumeRestore, h, hc, hne, hp, processBatch, successUpdate,
          applyAdmits, clearPending, BatcherState.from_dict]
  · intro v
    by_cases hv : v.state.pending_writes.isEmpty
    · simp [safeContinueAsNew, BatcherState.to_dict, hv]
    · simp [safeContinueAsNew, BatcherState.to_dict, hv]

/-- Witness for C5 (amended) at a blob whose carried counter sits at the
cap. -/
theorem claim_C5_witness :
    max_continue_as_new_cycles ≤ d10.continue_as_new_count ∧
    (resumeRestore d10 [] FlushOutcome.success).1.state.continue_as_new_count = 0 :=
  ⟨by decide,
   (claim_C5_resume_circuit_breaker d10 [] FlushOutcome.success (by decide)).1⟩

/-- C10: every batch handed to the external write activity — from the main
loop, from the resume safety check, or from the handoff force-flush — is
non-empty, so the activity's `no_data` branch is unreachable from the
coordinator: the result is always the success record counting the batch. -/
theorem claim_C10_no_empty_batch_write (w v : WfState) (d : StateDict)
    (b : List Entry)
    (h : b ∈ loopIterActivityCalls w ∨ b ∈ resumeActivityCalls d ∨
      b ∈ handoffActivityCalls v) :
    b ≠ [] ∧ batch_write_to_database b =
      { status := "success", count := b.length,
        write_time := some "simulated_timestamp" } := by
  have hb : b ≠ [] := by
    rcases h with h | h | h
    · simp only [loopIterActivityCalls] at h
      split at h
      · simp at h
      · rename_i hg
        rcases List.mem_singleton.mp h with rfl
        simpa [List.isEmpty_iff] using hg
    · simp only [resumeActivityCalls] at h
      split at h
      · rename_i hg
        rcases List.mem_singleton.mp h with rfl
        simpa [List.isEmpty_iff] using hg.2
      · simp at h
    · simp only [handoffActivityCalls] at h
      split at h
      · simp at h
      · rename_i hg
        rcases List.mem_singleton.mp h with rfl
        simpa [List.isEmpty_iff] using hg
  refine ⟨hb, ?_⟩
  rw [batch_write_to_database, if_neg ?_]
  simp [List.isEmpty_iff, hb]

/-- Witness for C10 at the main-loop call site with three pending writes. -/
theorem claim_C10_witness :
    (wThree.state.pending_writes ∈ loopIterActivityCalls wThree ∨
     wThree.state.pending_writes ∈ resumeActivityCalls d10 ∨
     wThree.state.pending_writes ∈ handoffActivityCalls freshState) ∧
    wThree.state.pending_writes ≠ [] ∧
    batch_write_to_database wThree.state.pending_writes =
      { status := "success", count := wThree.state.pending_writes.length,
        write_time := some "simulated_timestamp" } :=
  ⟨Or.inl (by decide),
   claim_C10_no_empty_batch_write wThree freshState d10
     wThree.state.pending_writes (Or.inl (by decide))⟩

/-- C7 counterexample: the claim asserts an overall deadline of 30s for the
whole retried invocation (a `schedule_to_close` bound); the call site passes
no such option — the 30s is `start_to_close`, i.e. per attempt. -/
theorem claim_C7_counterexample :
    ¬ processBatchActivityOptions.schedule_to_close_timeout = some 30 := by
  decide

/-- C6: from a fresh coordinator, after admitting three requests with distinct
keys and a successful flush, each of the three requester addresses receives
exactly one confirmation with status `success`, count 3, batch id `batch-1`
and batch size 3; afterwards the pending queue is empty, the deduplication set
is empty, and one batch has been completed. -/
theorem claim_C6_end_to_end_success :
    (processBatch [] FlushOutcome.success wThree).2 =
      [("a1", { status := "success", count := 3,
                write_time := some "simulated_timestamp",
                batch_id := "batch-1", batch_size := 3 }),
       ("a2", { status := "success", count := 3,
                write_time := some "simulated_timestamp",
                batch_id := "batch-1", batch_size := 3 }),
       ("a3", { status := "success", count := 3,
                write_time := some "simulated_timestamp",
                batch_id := "batch-1", batch_size := 3 })] ∧
    (processBatch [] FlushOutcome.success wThree).1.state.pending_writes = [] ∧
    (processBatch [] FlushOutcome.success wThree).1.state.processed_request_ids = ∅ ∧
    (processBatch [] FlushOutcome.success wThree).1.state.processed_batches_count = 1 := by
  refine ⟨by decide, by decide, by decide, by decide⟩

/-- C2 counterexample: first accept key `k1`, start a flush, let a request with key
`k2` arrive while the write is in flight, and let the write fail after retry
exhaustion.  The pending queue then reads `[k2, k1]` — the failed batch is
behind the request admitted during the flight, not in front of it as the
claim states. -/
theorem claim_C2_counterexample :
    ((processBatch [evOf rq2] FlushOutcome.failure
        (applyAdmits [evOf rq1] freshState)).1.state.pending_writes.map
          Entry.request_id = ["k2", "k1"]) ∧
    ¬ ((processBatch [evOf rq2] FlushOutcome.failure
        (applyAdmits [evOf rq1] freshState)).1.state.pending_writes.map
          Entry.request_id = ["k1", "k2"]) := by
  refine ⟨by decide, by decide⟩

/-- C2 (amended): on exhausted-retry failure of the external write, the flush
re-appends the entire snapshotted batch, in its original internal order, to
the BACK of the pending queue — after any requests admitted while the write
was in flight — and the failure handling leaves the deduplication set exactly
as it stood when the activity resolved (in particular the batch's keys stay
claimed). -/
theorem claim_C2_failure_requeue (w : WfState) (during : List AdmitEvent) :
    (processBatch during FlushOutcome.failure w).1.state.pending_writes =
      (applyAdmits during (clearPending w)).state.pending_writes ++
        w.state.pending_writes ∧
    (processBatch during FlushOutcome.failure w).1.state.processed_request_ids =
      (applyAdmits during (clearPending w)).state.processed_request_ids := by
  refine ⟨rfl, rfl⟩

/-- C7 (amended): the external write is invoked with retry policy of at most
3 attempts, initial backoff 1s, coefficient 2, cap 10s, and a 30s timeout per
individual attempt (`start_to_close`), with no overall deadline for the whole
retried invocation. -/
theorem claim_C7_retry_configuration :
    processBatchActivityOptions.retry_policy =
      { maximum_attempts := 3, initial_interval := 1,
        maximum_interval := 10, backoff_coefficient := 2 } ∧
    processBatchActivityOptions.start_to_close_timeout = some 30 ∧
    processBatchActivityOptions.schedule_to_close_timeout = none := by
  refine ⟨rfl, rfl, rfl⟩

end Batcher
